import Mathlib

/-!
Shallow embedding of the DNS monitor (`main.go`) for specification checking.

Conventions of the embedding:
* Timestamps are whole seconds (`Nat`).  The Go code formats timestamps with
  `time.RFC3339`, which prints whole seconds, and compares them with
  `Time.After` (strict `<` here).  The RFC3339 format/parse pair of the Go
  standard library is modelled by an injective decimal rendering of the
  second count (`fmtTimestamp`) together with a parser (`parseTimestamp`)
  that inverts it and fails on every non-digit string.
* `time.Now().AddDate(0, 0, -30)` is modelled as subtracting
  `retentionSeconds = 30 * 86400` seconds.
* The network resolver is modelled as a record of lookup functions returning
  `Except`: the string values a successful Go lookup yields after the
  conversions performed in `performDNSCheck` (`ip.String()`, `nsRecord.Host`,
  `mx.Host`), or the error text.
* File contents are explicit `String` arguments/results; I/O failures
  (directory creation, open, write) are outside the embedding.
-/

/-- List of the characters of a string split at every occurrence of the
separator character; models Go `strings.Split` with a one-character
separator (every separator used by the program — `"\n"`, `"\t"` — is one
character). -/
def splitChar (c : Char) : List Char → List (List Char)
  | [] => [[]]
  | x :: xs =>
    let rest := splitChar c xs
    if x = c then [] :: rest
    else (x :: rest.headD []) :: rest.tail

/-- Concatenation with the separator character between elements; models Go
`strings.Join` with a one-character separator (the program joins with
`","`). -/
def joinChar (c : Char) : List (List Char) → List Char
  | [] => []
  | [l] => l
  | l :: l' :: ls => l ++ c :: joinChar c (l' :: ls)

/-- String-level wrapper of `splitChar`. -/
def splitOnCharS (c : Char) (s : String) : List String :=
  (splitChar c s.data).map String.mk

/-- String-level wrapper of `joinChar`; models `strings.Join(values, ",")`. -/
def joinCharS (c : Char) (ls : List String) : String :=
  String.mk (joinChar c (ls.map String.data))

/-- Whether the first list is an initial segment of the second. -/
def isPrefList : List Char → List Char → Bool
  | [], _ => true
  | _ :: _, [] => false
  | x :: xs, y :: ys => x = y && isPrefList xs ys

/-- Whether `sub` occurs contiguously inside `s`; models Go
`strings.Contains`. -/
def containsSub (s sub : List Char) : Bool :=
  if isPrefList sub s then true
  else
    match s with
    | [] => false
    | _ :: xs => containsSub xs sub

/-- Lower-cased copy of a string; models Go `strings.ToLower`. -/
def toLowerStr (s : String) : String :=
  String.mk (s.data.map Char.toLower)

/-- Decimal digits of `n`, least significant first, with explicit fuel
(adequate whenever `fuel ≥ n`). -/
def natDigitsAux : Nat → Nat → List Nat
  | _, 0 => []
  | 0, _ + 1 => []
  | fuel + 1, n + 1 => ((n + 1) % 10) :: natDigitsAux fuel ((n + 1) / 10)

/-- Decimal digits of `n`, least significant first (empty for `0`). -/
def natDigitsLE (n : Nat) : List Nat :=
  natDigitsAux n n

/-- Value of a least-significant-first digit list. -/
def ofDigitsLE : List Nat → Nat
  | [] => 0
  | d :: ds => d + 10 * ofDigitsLE ds

/-- Character of one decimal digit. -/
def digitToChar : Nat → Char
  | 0 => '0' | 1 => '1' | 2 => '2' | 3 => '3' | 4 => '4'
  | 5 => '5' | 6 => '6' | 7 => '7' | 8 => '8' | _ => '9'

/-- Digit value of a character, if it is a decimal digit. -/
def charToDigit (c : Char) : Option Nat :=
  if '0'.toNat ≤ c.toNat ∧ c.toNat ≤ '9'.toNat then some (c.toNat - '0'.toNat)
  else none

/-- Digit values of a character list, failing on any non-digit. -/
def digitsOf? : List Char → Option (List Nat)
  | [] => some []
  | c :: cs =>
    match charToDigit c, digitsOf? cs with
    | some d, some ds => some (d :: ds)
    | _, _ => none

/-- Rendering of a timestamp (whole seconds) as its decimal numeral; models
the `time.RFC3339` rendering used on line 111 of `main.go` (injective, one
string per second). -/
def fmtTimestamp (t : Nat) : String :=
  if t = 0 then "0" else String.mk (((natDigitsLE t).map digitToChar).reverse)

/-- Parsing of a timestamp string; models `time.Parse(time.RFC3339, s)` on
line 186 of `main.go`: inverts `fmtTimestamp` and fails (`none`) on any
string that is not a pure digit numeral. -/
def parseTimestamp (s : String) : Option Nat :=
  if s.data = [] then none
  else (digitsOf? s.data).map (fun ds => ofDigitsLE ds.reverse)

/-- One recorded check outcome; embeds the Go struct `CheckResult`
(`main.go` lines 19–24). -/
structure CheckResult where
  status : String
  timestamp : Nat
  actualResult : List String
  server : String
deriving DecidableEq

/-- One configured check together with its mutable state; embeds the Go
struct `DNSCheck` (`main.go` lines 26–35).  The `historyLock` mutex carries
no data and is modelled separately (`updateStatusEvents`,
`saveCheckToLogEvents`). -/
structure DNSCheck where
  domain : String
  type : String
  expected : String
  interval : Nat
  status : String
  lastCheck : Nat
  history : List CheckResult
deriving DecidableEq

/-- Retention window of the history: 30 days in seconds; models
`time.Now().AddDate(0, 0, -30)` in `updateStatus` and
`loadHistoryFromLog`. -/
def retentionSeconds : Nat := 30 * 86400

/-- State update performed by `(*Config).updateStatus` (`main.go` lines
49–76) on the check at the given index, with `now` the value of
`time.Now()` during the call: set the current status and last-check fields
from the result, append the result to the history, and keep only entries
strictly after `now` minus 30 days.  The asynchronous `saveCheckToLog`
launch is modelled separately. -/
def updateStatus (now : Nat) (check : DNSCheck) (result : CheckResult) : DNSCheck :=
  let check := { check with status := result.status, lastCheck := result.timestamp }
  let history := check.history ++ [result]
  let cutoff := now - retentionSeconds
  { check with history := history.filter (fun h => cutoff < h.timestamp) }

/-- Log line written for one result by `saveCheckToLog` (`main.go` lines
110–114): RFC3339 timestamp, status, server and the comma-joined record
values, tab-separated, newline-terminated. -/
def logEntry (r : CheckResult) : String :=
  fmtTimestamp r.timestamp ++ "\t" ++ r.status ++ "\t" ++ r.server ++ "\t"
    ++ joinCharS ',' r.actualResult ++ "\n"

/-- Effect of `saveCheckToLog` (`main.go` lines 78–119) on the contents of
the per-check log file: append the formatted line for the last history
entry, or leave the file untouched when the history is empty. -/
def saveCheckToLog (check : DNSCheck) (contents : String) : String :=
  match check.history.getLast? with
  | none => contents
  | some r => contents ++ logEntry r

/-- Parse of one log line inside the loop of `loadHistoryFromLog`
(`main.go` lines 177–201): skip empty lines, split on tabs, require at
least four fields, parse the timestamp, and keep the entry only when it is
strictly after `now` minus 30 days. -/
def parseLogLine (now : Nat) (line : String) : Option CheckResult :=
  if line = "" then none
  else
    let parts := splitOnCharS '\t' line
    if parts.length < 4 then none
    else
      (parseTimestamp (parts.getD 0 "")).bind fun ts =>
        if now - retentionSeconds < ts then
          some { status := parts.getD 1 "", timestamp := ts,
                 actualResult := splitOnCharS ',' (parts.getD 3 ""),
                 server := parts.getD 2 "" }
        else none

/-- History entries contributed by a list of log lines. -/
def loadLines (now : Nat) (lines : List String) : List CheckResult :=
  lines.filterMap (parseLogLine now)

/-- Rehydration from a log file's contents: `loadHistoryFromLog`
(`main.go` lines 165–203) splits the contents on newlines and appends every
surviving parsed entry to the check's history (its caller `loadConfig`
passes a check whose history was just reset to empty). -/
def loadHistoryFromLog (now : Nat) (check : DNSCheck) (contents : String) : DNSCheck :=
  { check with history := check.history ++ loadLines now (splitOnCharS '\n' contents) }

/-- Resolver capability as used by `performDNSCheck`: one lookup per
supported record type, yielding either the list of string values the Go
code extracts (`ip.String()`, the canonical name, `nsRecord.Host`, the TXT
strings, `mx.Host`) or the error text. -/
structure Resolver where
  lookupIP : String → Except String (List String)
  lookupCNAME : String → Except String String
  lookupNS : String → Except String (List String)
  lookupTXT : String → Except String (List String)
  lookupMX : String → Except String (List String)

/-- Status string for a failed lookup: `fmt.Sprintf("%s-%s-ERROR-%v", ...)`
(`main.go` lines 226 etc.). -/
def errStatus (check : DNSCheck) (e : String) : String :=
  check.domain ++ "-" ++ check.type ++ "-ERROR-" ++ e

/-- Status string for a passing check (`main.go` line 271). -/
def passStatus (check : DNSCheck) : String :=
  check.domain ++ "-" ++ check.type ++ "-PASS"

/-- Status string for a failing check (`main.go` line 275). -/
def failStatus (check : DNSCheck) : String :=
  check.domain ++ "-" ++ check.type ++ "-FAIL"

/-- Status string for an unsupported record type (`main.go` line 265). -/
def unsupportedStatus (check : DNSCheck) : String :=
  check.domain ++ "-" ++ check.type ++ "-UNSUPPORTED"

/-- Final classification loop of `performDNSCheck` (`main.go` lines
269–275): PASS as soon as some record's lower-casing contains the
lower-cased expected value, else FAIL; both return the full record list. -/
def matchRecords (check : DNSCheck) (records : List String) : String × List String :=
  if records.any (fun record =>
      containsSub (toLowerStr record).data (toLowerStr check.expected).data) then
    (passStatus check, records)
  else
    (failStatus check, records)

/-- Embedding of `performDNSCheck` (`main.go` lines 219–276): dispatch on
the record type, return the ERROR status with an empty record list on
lookup failure, the UNSUPPORTED status with an empty record list on an
unknown type, and otherwise classify the collected records. -/
def performDNSCheck (check : DNSCheck) (resolver : Resolver) : String × List String :=
  match check.type with
  | "A" =>
    match resolver.lookupIP check.domain with
    | .error e => (errStatus check e, [])
    | .ok ips => matchRecords check ips
  | "CNAME" =>
    match resolver.lookupCNAME check.domain with
    | .error e => (errStatus check e, [])
    | .ok cname => matchRecords check [cname]
  | "NS" =>
    match resolver.lookupNS check.domain with
    | .error e => (errStatus check e, [])
    | .ok hosts => matchRecords check hosts
  | "TXT" =>
    match resolver.lookupTXT check.domain with
    | .error e => (errStatus check e, [])
    | .ok txts => matchRecords check txts
  | "MX" =>
    match resolver.lookupMX check.domain with
    | .error e => (errStatus check e, [])
    | .ok hosts => matchRecords check hosts
  | _ => (unsupportedStatus check, [])

/-- Record values produced by the lookup a given check performs, when its
type is supported: mirrors the dispatch of `performDNSCheck` (`main.go`
lines 222–263), with the CNAME lookup contributing a one-element list. -/
def lookupRecords (check : DNSCheck) (resolver : Resolver) :
    Option (Except String (List String)) :=
  match check.type with
  | "A" => some (resolver.lookupIP check.domain)
  | "CNAME" => some ((resolver.lookupCNAME check.domain).map (fun c => [c]))
  | "NS" => some (resolver.lookupNS check.domain)
  | "TXT" => some (resolver.lookupTXT check.domain)
  | "MX" => some (resolver.lookupMX check.domain)
  | _ => none

/-- Results recorded during one tick of a check's monitor loop
(`main.go` lines 294–316): one result from the primary resolver, and — when
a secondary DNS server is configured (non-empty name, hence
`secondaryResolver != nil`) — a second result from the secondary resolver,
both stamped with the single `now` captured at the start of the tick and
carrying the configured server names. -/
def tickResults (primaryName secondaryName : String) (check : DNSCheck)
    (primary secondary : Resolver) (now : Nat) : List CheckResult :=
  let first := performDNSCheck check primary
  let r1 : CheckResult :=
    { status := first.1, timestamp := now, actualResult := first.2, server := primaryName }
  if secondaryName = "" then [r1]
  else
    let second := performDNSCheck check secondary
    [r1, { status := second.1, timestamp := now, actualResult := second.2,
           server := secondaryName }]

/-- Identity of a mutex in the program: the coarse `Config.mu` lock, or the
`historyLock` of the check at a given index. -/
inductive LockId
  | coarse
  | hist (i : Nat)
deriving DecidableEq

/-- Events of a lock trace: acquisitions, releases, and the shared-state
operations performed between them. -/
inductive LockEvt
  | acquire (l : LockId)
  | release (l : LockId)
  | setStatusFields
  | appendHistory
  | pruneHistory
  | readLastEntry
  | writeLogLine
deriving DecidableEq

/-- Lock trace of `(*Config).updateStatus` on the check at index `i`
(`main.go` lines 49–76): `c.mu.Lock()` first, the status/last-check writes,
then the per-check `historyLock` nested inside it around the history append
and prune, `historyLock.Unlock()`, and the deferred `c.mu.Unlock()` last. -/
def updateStatusEvents (i : Nat) : List LockEvt :=
  [.acquire .coarse, .setStatusFields, .acquire (.hist i), .appendHistory,
   .pruneHistory, .release (.hist i), .release .coarse]

/-- Lock trace of `saveCheckToLog` for the check at index `i` (`main.go`
lines 100–117): only the per-check `historyLock` (shared mode) around
reading the last entry; the file write happens with no lock held. -/
def saveCheckToLogEvents (i : Nat) : List LockEvt :=
  [.acquire (.hist i), .readLastEntry, .release (.hist i), .writeLogLine]

/-- Locks held after the first `k` events of a trace. -/
def heldAt (evts : List LockEvt) (k : Nat) : List LockId :=
  (evts.take k).foldl
    (fun held e =>
      match e with
      | .acquire l => held ++ [l]
      | .release l => held.filter (fun l' => l' ≠ l)
      | _ => held)
    []

/-- Sample check mirroring the first A-record example of the shipped
`config.yaml` (domain `example.org`, expected `93.184.216.34`). -/
def sampleCheckA : DNSCheck :=
  { domain := "example.org", type := "A", expected := "93.184.216.34",
    interval := 300, status := "PENDING", lastCheck := 0, history := [] }

/-- Sample check with the unsupported record type `SRV`. -/
def sampleCheckSRV : DNSCheck :=
  { domain := "example.org", type := "SRV", expected := "x",
    interval := 300, status := "PENDING", lastCheck := 0, history := [] }

/-- Sample resolver whose lookups all succeed. -/
def sampleResolver : Resolver :=
  { lookupIP := fun _ => .ok ["93.184.216.34"],
    lookupCNAME := fun _ => .ok "cname.example.org.",
    lookupNS := fun _ => .ok ["ns1.example.com"],
    lookupTXT := fun _ => .ok ["v=spf1 -all"],
    lookupMX := fun _ => .ok ["mail.example.net"] }

/-- Sample resolver whose lookups all fail. -/
def sampleErrResolver : Resolver :=
  { lookupIP := fun _ => .error "lookup failed",
    lookupCNAME := fun _ => .error "lookup failed",
    lookupNS := fun _ => .error "lookup failed",
    lookupTXT := fun _ => .error "lookup failed",
    lookupMX := fun _ => .error "lookup failed" }

/-- Sample passing result. -/
def sampleResult : CheckResult :=
  { status := "example.org-A-PASS", timestamp := 50,
    actualResult := ["93.184.216.34"], server := "8.8.8.8" }

/-- Sample error result, with an empty record list. -/
def sampleErrResult : CheckResult :=
  { status := "example.org-A-ERROR-lookup failed", timestamp := 100,
    actualResult := [], server := "8.8.8.8" }

/-- Sample result as rehydrated from the log line `"50\tS\tsrv\tv"`. -/
def sampleParsed : CheckResult :=
  { status := "S", timestamp := 50, actualResult := ["v"], server := "srv" }

/-! ### String and list plumbing -/

theorem strData_append (a b : String) : (a ++ b).data = a.data ++ b.data := rfl

theorem strMk_data (s : String) : String.mk s.data = s := rfl

theorem str_ne_empty_of_data {s : String} (h : s.data ≠ []) : s ≠ "" := by
  intro he
  exact h (by rw [he])

theorem splitChar_ne_nil (c : Char) (l : List Char) : splitChar c l ≠ [] := by
  induction l with
  | nil => simp [splitChar]
  | cons x xs ih =>
    simp only [splitChar]
    split
    all_goals exact List.cons_ne_nil _ _

theorem splitChar_no_sep {c : Char} {l : List Char} (h : c ∉ l) :
    splitChar c l = [l] := by
  induction l with
  | nil => rfl
  | cons x xs ih =>
    have hx : ¬ x = c := by
      intro hxc; exact h (hxc ▸ List.mem_cons_self x xs)
    have hxs : c ∉ xs := fun hm => h (List.mem_cons_of_mem _ hm)
    simp only [splitChar, if_neg hx, ih hxs, List.headD_cons, List.tail_cons]

theorem splitChar_append {c : Char} {a : List Char} (b : List Char) (h : c ∉ a) :
    splitChar c (a ++ c :: b) = a :: splitChar c b := by
  induction a with
  | nil => simp [splitChar]
  | cons x xs ih =>
    have hx : ¬ x = c := by
      intro hxc; exact h (hxc ▸ List.mem_cons_self x xs)
    have hxs : c ∉ xs := fun hm => h (List.mem_cons_of_mem _ hm)
    have hrec := ih hxs
    simp only [List.cons_append, splitChar, if_neg hx, List.append_eq, hrec,
      List.headD_cons, List.tail_cons]

theorem splitChar_joinChar {c : Char} {ls : List (List Char)} (hne : ls ≠ [])
    (h : ∀ l ∈ ls, c ∉ l) : splitChar c (joinChar c ls) = ls := by
  induction ls with
  | nil => exact absurd rfl hne
  | cons l ls ih =>
    cases ls with
    | nil =>
      simp only [joinChar]
      exact splitChar_no_sep (h l (List.mem_cons_self _ _))
    | cons l' ls' =>
      simp only [joinChar]
      rw [splitChar_append _ (h l (List.mem_cons_self _ _))]
      have := ih (by simp) (fun m hm => h m (List.mem_cons_of_mem _ hm))
      simp only [joinChar] at this
      rw [this]

theorem joinChar_mem {c ch : Char} {ls : List (List Char)}
    (h : ch ∈ joinChar c ls) : ch = c ∨ ∃ l ∈ ls, ch ∈ l := by
  induction ls with
  | nil => simp [joinChar] at h
  | cons l ls ih =>
    cases ls with
    | nil =>
      simp only [joinChar] at h
      exact Or.inr ⟨l, List.mem_cons_self _ _, h⟩
    | cons l' ls' =>
      simp only [joinChar, List.mem_append, List.mem_cons] at h
      rcases h with h | h | h
      · exact Or.inr ⟨l, List.mem_cons_self _ _, h⟩
      · exact Or.inl h
      · rcases ih h with h' | ⟨m, hm, hchm⟩
        · exact Or.inl h'
        · exact Or.inr ⟨m, List.mem_cons_of_mem _ hm, hchm⟩

theorem splitOnCharS_joinCharS {rs : List String} (hne : rs ≠ [])
    (h : ∀ v ∈ rs, ',' ∉ v.data) :
    splitOnCharS ',' (joinCharS ',' rs) = rs := by
  unfold splitOnCharS joinCharS
  have hmapne : rs.map String.data ≠ [] := by
    simpa using hne
  have hclean : ∀ l ∈ rs.map String.data, ',' ∉ l := by
    intro l hl
    rcases List.mem_map.mp hl with ⟨v, hv, rfl⟩
    exact h v hv
  rw [show (String.mk (joinChar ',' (rs.map String.data))).data
        = joinChar ',' (rs.map String.data) from rfl]
  rw [splitChar_joinChar hmapne hclean]
  rw [List.map_map]
  have : (String.mk ∘ String.data) = id := by
    funext s; rfl
  rw [this, List.map_id]

/-! ### Decimal timestamp codec -/

theorem natDigitsAux_fuel : ∀ (n f₁ f₂ : Nat), n ≤ f₁ → n ≤ f₂ →
    natDigitsAux f₁ n = natDigitsAux f₂ n := by
  intro n
  induction n using Nat.strong_induction_on with
  | _ n ih =>
    intro f₁ f₂ h₁ h₂
    match n, f₁, f₂ with
    | 0, f₁, f₂ =>
      cases f₁ <;> cases f₂ <;> rfl
    | n + 1, f₁ + 1, f₂ + 1 =>
      simp only [natDigitsAux]
      have hdiv : (n + 1) / 10 < n + 1 := Nat.div_lt_self (Nat.succ_pos n) (by decide)
      rw [ih ((n + 1) / 10) hdiv f₁ f₂ (by omega) (by omega)]

theorem natDigitsAux_lt10 : ∀ (f n d : Nat), d ∈ natDigitsAux f n → d < 10 := by
  intro f
  induction f with
  | zero =>
    intro n d hd
    cases n <;> simp [natDigitsAux] at hd
  | succ f ih =>
    intro n d hd
    cases n with
    | zero => simp [natDigitsAux] at hd
    | succ n =>
      simp only [natDigitsAux, List.mem_cons] at hd
      rcases hd with rfl | hd
      · exact Nat.mod_lt _ (by decide)
      · exact ih _ _ hd

theorem ofDigitsLE_natDigitsLE (n : Nat) : ofDigitsLE (natDigitsLE n) = n := by
  induction n using Nat.strong_induction_on with
  | _ n ih =>
    cases n with
    | zero => rfl
    | succ n =>
      have hdiv : (n + 1) / 10 < n + 1 := Nat.div_lt_self (Nat.succ_pos n) (by decide)
      unfold natDigitsLE
      simp only [natDigitsAux]
      have hfuel : natDigitsAux n ((n + 1) / 10) = natDigitsLE ((n + 1) / 10) := by
        unfold natDigitsLE
        exact natDigitsAux_fuel _ _ _ (by omega) (le_refl _)
      rw [hfuel]
      simp only [ofDigitsLE]
      rw [ih _ hdiv]
      exact Nat.mod_add_div _ _

theorem natDigitsLE_ne_nil {n : Nat} (h : n ≠ 0) : natDigitsLE n ≠ [] := by
  cases n with
  | zero => exact absurd rfl h
  | succ n => simp [natDigitsLE, natDigitsAux]

theorem charToDigit_digitToChar {d : Nat} (h : d < 10) :
    charToDigit (digitToChar d) = some d := by
  interval_cases d <;> decide

theorem digitToChar_ne (d : Nat) :
    digitToChar d ≠ '\t' ∧ digitToChar d ≠ '\n' := by
  match d with
  | 0 | 1 | 2 | 3 | 4 | 5 | 6 | 7 | 8 => decide
  | n + 9 =>
    show '9' ≠ '\t' ∧ '9' ≠ '\n'
    decide

theorem digitsOf?_map {ds : List Nat} (h : ∀ d ∈ ds, d < 10) :
    digitsOf? (ds.map digitToChar) = some ds := by
  induction ds with
  | nil => rfl
  | cons d ds ih =>
    simp only [List.map_cons, digitsOf?]
    rw [charToDigit_digitToChar (h d (List.mem_cons_self _ _)),
        ih (fun x hx => h x (List.mem_cons_of_mem _ hx))]

theorem parseTimestamp_fmtTimestamp (t : Nat) :
    parseTimestamp (fmtTimestamp t) = some t := by
  by_cases ht : t = 0
  · subst ht; rfl
  · unfold fmtTimestamp
    rw [if_neg ht]
    unfold parseTimestamp
    have hdata : (String.mk (((natDigitsLE t).map digitToChar).reverse)).data
        = ((natDigitsLE t).reverse).map digitToChar := by
      show ((natDigitsLE t).map digitToChar).reverse = ((natDigitsLE t).reverse).map digitToChar
      rw [List.map_reverse]
    rw [hdata]
    have hne : ((natDigitsLE t).reverse).map digitToChar ≠ [] := by
      simp [natDigitsLE_ne_nil ht]
    rw [if_neg hne]
    have hlt : ∀ d ∈ (natDigitsLE t).reverse, d < 10 := by
      intro d hd
      exact natDigitsAux_lt10 _ _ _ (List.mem_reverse.mp hd)
    rw [digitsOf?_map hlt]
    simp only [Option.map_some', List.reverse_reverse]
    rw [ofDigitsLE_natDigitsLE]

theorem fmtTimestamp_chars {t : Nat} {c : Char} (h : c ∈ (fmtTimestamp t).data) :
    c ≠ '\t' ∧ c ≠ '\n' := by
  unfold fmtTimestamp at h
  by_cases ht : t = 0
  · rw [if_pos ht] at h
    simp only [show ("0" : String).data = ['0'] from rfl, List.mem_singleton] at h
    subst h; decide
  · rw [if_neg ht] at h
    have : c ∈ ((natDigitsLE t).map digitToChar).reverse := h
    rw [List.mem_reverse] at this
    rcases List.mem_map.mp this with ⟨d, _, rfl⟩
    exact digitToChar_ne d

theorem splitChar_four (t : Char) (A B C D : List Char)
    (hA : t ∉ A) (hB : t ∉ B) (hC : t ∉ C) (hD : t ∉ D) :
    splitChar t (A ++ t :: (B ++ t :: (C ++ t :: D))) = [A, B, C, D] := by
  rw [splitChar_append _ hA, splitChar_append _ hB, splitChar_append _ hC,
    splitChar_no_sep hD]

theorem fmtTimestamp_data_ne_nil (t : Nat) : (fmtTimestamp t).data ≠ [] := by
  unfold fmtTimestamp
  by_cases ht : t = 0
  · rw [if_pos ht]
    decide
  · rw [if_neg ht]
    show ((natDigitsLE t).map digitToChar).reverse ≠ []
    simp [natDigitsLE_ne_nil ht]

theorem joinCharS_chars {r : CheckResult} {ch : Char}
    (hrec : ∀ v ∈ r.actualResult, ∀ ch ∈ v.data, ch ≠ ',' ∧ ch ≠ '\t' ∧ ch ≠ '\n')
    (h : ch ∈ (joinCharS ',' r.actualResult).data) : ch ≠ '\t' ∧ ch ≠ '\n' := by
  have h' : ch ∈ joinChar ',' (r.actualResult.map String.data) := h
  rcases joinChar_mem h' with rfl | ⟨l, hl, hchl⟩
  · exact ⟨by decide, by decide⟩
  · rcases List.mem_map.mp hl with ⟨v, hv, rfl⟩
    exact ⟨(hrec v hv ch hchl).2.1, (hrec v hv ch hchl).2.2⟩

theorem logEntry_data (r : CheckResult) :
    (logEntry r).data
      = ((fmtTimestamp r.timestamp).data ++ '\t' :: (r.status.data ++ '\t' ::
          (r.server.data ++ '\t' :: (joinCharS ',' r.actualResult).data))) ++ '\n' :: [] := by
  have ht : ("\t" : String).data = ['\t'] := rfl
  have hn : ("\n" : String).data = ['\n'] := rfl
  simp only [logEntry, strData_append, ht, hn, List.append_assoc, List.cons_append,
    List.nil_append, List.singleton_append]

theorem loadLines_logEntry (now : Nat) (r : CheckResult)
    (hwin : now - retentionSeconds < r.timestamp)
    (hstatus : ∀ ch ∈ r.status.data, ch ≠ '\t' ∧ ch ≠ '\n')
    (hserver : ∀ ch ∈ r.server.data, ch ≠ '\t' ∧ ch ≠ '\n')
    (hrec : ∀ v ∈ r.actualResult, ∀ ch ∈ v.data, ch ≠ ',' ∧ ch ≠ '\t' ∧ ch ≠ '\n') :
    loadLines now (splitOnCharS '\n' (logEntry r))
      = [{ r with actualResult := splitOnCharS ',' (joinCharS ',' r.actualResult) }] := by
  have hfmtN : ∀ ch ∈ (fmtTimestamp r.timestamp).data, ch ≠ '\t' ∧ ch ≠ '\n' :=
    fun _ h => fmtTimestamp_chars h
  have hjoin : ∀ ch ∈ (joinCharS ',' r.actualResult).data, ch ≠ '\t' ∧ ch ≠ '\n' :=
    fun _ h => joinCharS_chars hrec h
  have hlineN : '\n' ∉ ((fmtTimestamp r.timestamp).data ++ '\t' :: (r.status.data ++ '\t' ::
      (r.server.data ++ '\t' :: (joinCharS ',' r.actualResult).data))) := by
    intro hm
    simp only [List.mem_append, List.mem_cons] at hm
    rcases hm with h | h | h | h | h | h | h
    · exact (hfmtN _ h).2 rfl
    · exact absurd h.symm (by decide)
    · exact (hstatus _ h).2 rfl
    · exact absurd h.symm (by decide)
    · exact (hserver _ h).2 rfl
    · exact absurd h.symm (by decide)
    · exact (hjoin _ h).2 rfl
  have hsplitN : splitOnCharS '\n' (logEntry r)
      = [String.mk ((fmtTimestamp r.timestamp).data ++ '\t' :: (r.status.data ++ '\t' ::
          (r.server.data ++ '\t' :: (joinCharS ',' r.actualResult).data))), ""] := by
    unfold splitOnCharS
    rw [logEntry_data, splitChar_append _ hlineN]
    rfl
  rw [hsplitN]
  have hlineData : (String.mk ((fmtTimestamp r.timestamp).data ++ '\t' :: (r.status.data ++ '\t' ::
      (r.server.data ++ '\t' :: (joinCharS ',' r.actualResult).data)))).data
      = (fmtTimestamp r.timestamp).data ++ '\t' :: (r.status.data ++ '\t' ::
          (r.server.data ++ '\t' :: (joinCharS ',' r.actualResult).data)) := rfl
  have hne : String.mk ((fmtTimestamp r.timestamp).data ++ '\t' :: (r.status.data ++ '\t' ::
      (r.server.data ++ '\t' :: (joinCharS ',' r.actualResult).data))) ≠ "" := by
    apply str_ne_empty_of_data
    rw [hlineData]
    intro habs
    exact fmtTimestamp_data_ne_nil r.timestamp (List.append_eq_nil.mp habs).1
  have hparts : splitOnCharS '\t' (String.mk ((fmtTimestamp r.timestamp).data ++ '\t' ::
      (r.status.data ++ '\t' :: (r.server.data ++ '\t' ::
        (joinCharS ',' r.actualResult).data))))
      = [fmtTimestamp r.timestamp, r.status, r.server, joinCharS ',' r.actualResult] := by
    unfold splitOnCharS
    rw [hlineData,
      splitChar_four '\t' _ _ _ _
        (fun hm => (hfmtN _ hm).1 rfl) (fun hm => (hstatus _ hm).1 rfl)
        (fun hm => (hserver _ hm).1 rfl) (fun hm => (hjoin _ hm).1 rfl)]
    rfl
  have hpl : parseLogLine now (String.mk ((fmtTimestamp r.timestamp).data ++ '\t' ::
      (r.status.data ++ '\t' :: (r.server.data ++ '\t' ::
        (joinCharS ',' r.actualResult).data))))
      = some { r with actualResult := splitOnCharS ',' (joinCharS ',' r.actualResult) } := by
    unfold parseLogLine
    rw [if_neg hne, hparts]
    simp only [List.length_cons, List.length_nil, List.getD, List.get?_cons_zero,
      List.get?_cons_succ, Option.getD_some]
    rw [if_neg (by omega), parseTimestamp_fmtTimestamp]
    simp only [Option.some_bind, if_pos hwin]
  unfold loadLines
  simp only [List.filterMap_cons, List.filterMap_nil, hpl]
  have h2 : parseLogLine now "" = none := rfl
  rw [h2]

theorem strEmpty_append (s : String) : "" ++ s = s := by
  cases s
  rfl

theorem updateStatus_getLast (now : Nat) (check : DNSCheck) (r : CheckResult)
    (hwin : now - retentionSeconds < r.timestamp) :
    (updateStatus now check r).history.getLast? = some r := by
  simp only [updateStatus]
  have hfilter : List.filter (fun h => decide (now - retentionSeconds < h.timestamp)) [r]
      = [r] := by
    simp [hwin]
  rw [List.filter_append, hfilter, List.getLast?_concat]

theorem saveCheckToLog_updateStatus (now : Nat) (check : DNSCheck) (r : CheckResult)
    (hwin : now - retentionSeconds < r.timestamp) :
    saveCheckToLog (updateStatus now check r) "" = logEntry r := by
  unfold saveCheckToLog
  rw [updateStatus_getLast now check r hwin]
  show "" ++ logEntry r = logEntry r
  exact strEmpty_append _

theorem parseLogLine_props {now : Nat} {line : String} {r : CheckResult}
    (h : parseLogLine now line = some r) :
    now - retentionSeconds < r.timestamp ∧ r.actualResult ≠ [] := by
  simp only [parseLogLine] at h
  split at h
  · exact absurd h (by simp)
  · split at h
    · exact absurd h (by simp)
    · rcases Option.bind_eq_some.mp h with ⟨ts, _, hr⟩
      split at hr
      · rename_i hwin
        injection hr with hr'
        subst hr'
        refine ⟨hwin, ?_⟩
        show splitOnCharS ',' _ ≠ []
        unfold splitOnCharS
        intro habs
        exact splitChar_ne_nil ',' _ (List.map_eq_nil_iff.mp habs)
      · exact absurd hr (by simp)

theorem isPrefList_append (sub b : List Char) : isPrefList sub (sub ++ b) = true := by
  induction sub with
  | nil => rfl
  | cons x xs ih => simp [isPrefList, ih]

theorem containsSub_here (sub b : List Char) : containsSub (sub ++ b) sub = true := by
  unfold containsSub
  rw [isPrefList_append]
  simp

theorem containsSub_append_left (a : List Char) {s sub : List Char}
    (h : containsSub s sub = true) : containsSub (a ++ s) sub = true := by
  induction a with
  | nil => simpa using h
  | cons x xs ih =>
    rw [List.cons_append]
    unfold containsSub
    split
    · rfl
    · exact ih

theorem errStatus_ne_passStatus (check : DNSCheck) (e : String) :
    errStatus check e ≠ passStatus check := by
  intro h
  have hd := congrArg (fun s => s.data.length) h
  simp only [errStatus, passStatus, strData_append, List.length_append] at hd
  have h1 : ("-ERROR-" : String).data.length = 7 := rfl
  have h2 : ("-PASS" : String).data.length = 5 := rfl
  rw [h1, h2] at hd
  omega

theorem errStatus_ne_failStatus (check : DNSCheck) (e : String) :
    errStatus check e ≠ failStatus check := by
  intro h
  have hd := congrArg (fun s => s.data.length) h
  simp only [errStatus, failStatus, strData_append, List.length_append] at hd
  have h1 : ("-ERROR-" : String).data.length = 7 := rfl
  have h2 : ("-FAIL" : String).data.length = 5 := rfl
  rw [h1, h2] at hd
  omega

theorem unsupportedStatus_ne_passStatus (check : DNSCheck) :
    unsupportedStatus check ≠ passStatus check := by
  intro h
  have hd := congrArg (fun s => s.data.length) h
  simp only [unsupportedStatus, passStatus, strData_append, List.length_append] at hd
  have h1 : ("-UNSUPPORTED" : String).data.length = 12 := rfl
  have h2 : ("-PASS" : String).data.length = 5 := rfl
  rw [h1, h2] at hd
  omega

theorem unsupportedStatus_ne_failStatus (check : DNSCheck) :
    unsupportedStatus check ≠ failStatus check := by
  intro h
  have hd := congrArg (fun s => s.data.length) h
  simp only [unsupportedStatus, failStatus, strData_append, List.length_append] at hd
  have h1 : ("-UNSUPPORTED" : String).data.length = 12 := rfl
  have h2 : ("-FAIL" : String).data.length = 5 := rfl
  rw [h1, h2] at hd
  omega

theorem passStatus_ne_failStatus (check : DNSCheck) :
    passStatus check ≠ failStatus check := by
  intro h
  have hd := congrArg String.data h
  simp only [passStatus, failStatus, strData_append, List.append_assoc] at hd
  have h1 := List.append_cancel_left hd
  have h2 := List.append_cancel_left h1
  have h3 := List.append_cancel_left h2
  exact absurd h3 (by decide)

theorem matchRecords_spec (check : DNSCheck) (records : List String) :
    (matchRecords check records).2 = records ∧
    ((matchRecords check records).1 = passStatus check ↔
      ∃ v ∈ records,
        containsSub (toLowerStr v).data (toLowerStr check.expected).data = true) ∧
    ((matchRecords check records).1 = failStatus check ↔
      ¬ ∃ v ∈ records,
        containsSub (toLowerStr v).data (toLowerStr check.expected).data = true) := by
  unfold matchRecords
  by_cases hany : records.any (fun record =>
      containsSub (toLowerStr record).data (toLowerStr check.expected).data) = true
  · rw [if_pos hany]
    refine ⟨rfl, ⟨fun _ => ?_, fun _ => rfl⟩, ⟨fun hp => ?_, fun hn => ?_⟩⟩
    · simpa using List.any_eq_true.mp hany
    · exact absurd hp (passStatus_ne_failStatus check)
    · exact absurd (by simpa using List.any_eq_true.mp hany) hn
  · rw [if_neg hany]
    refine ⟨rfl, ⟨fun hp => ?_, fun he => ?_⟩, ⟨fun _ => ?_, fun _ => rfl⟩⟩
    · exact absurd hp.symm (passStatus_ne_failStatus check)
    · exact absurd (List.any_eq_true.mpr (by simpa using he)) hany
    · intro he
      exact hany (List.any_eq_true.mpr (by simpa using he))

/-! ### Claim theorems -/

/-- C3: after every append (`updateStatus`) and after every rehydration of a
fresh check (`loadHistoryFromLog` on an empty history, as `loadConfig` calls
it), every retained history entry's timestamp is strictly within the last 30
days of the `now` of that operation; entries at or before the cutoff are
absent. -/
theorem claim_history_window :
    (∀ (now : Nat) (check : DNSCheck) (r e : CheckResult),
      e ∈ (updateStatus now check r).history → now - retentionSeconds < e.timestamp) ∧
    (∀ (now : Nat) (check : DNSCheck) (contents : String) (e : CheckResult),
      check.history = [] → e ∈ (loadHistoryFromLog now check contents).history →
      now - retentionSeconds < e.timestamp) := by
  constructor
  · intro now check r e he
    simp only [updateStatus] at he
    exact of_decide_eq_true (List.mem_filter.mp he).2
  · intro now check contents e hck he
    simp only [loadHistoryFromLog, hck, List.nil_append] at he
    unfold loadLines at he
    rcases List.mem_filterMap.mp he with ⟨line, _, hparse⟩
    exact (parseLogLine_props hparse).1

/-- Witness for C3 at concrete inputs: the appended sample result and the
entry rehydrated from a concrete log line both satisfy the window bound. -/
theorem claim_history_window_w :
    (50 - retentionSeconds < sampleResult.timestamp) ∧
    (50 - retentionSeconds < sampleParsed.timestamp) :=
  ⟨claim_history_window.1 50 sampleCheckA sampleResult sampleResult (by decide),
   claim_history_window.2 50 sampleCheckA "50\tS\tsrv\tv" sampleParsed rfl (by decide)⟩

/-- C5: `updateStatus` always copies the appended result's status and
timestamp into the check's current-status and last-check fields, so after two
appends in one tick the second (secondary) result's values stand
(last-write-wins). -/
theorem claim_last_write_wins :
    (∀ (now : Nat) (check : DNSCheck) (r : CheckResult),
      (updateStatus now check r).status = r.status ∧
      (updateStatus now check r).lastCheck = r.timestamp) ∧
    (∀ (now1 now2 : Nat) (check : DNSCheck) (r1 r2 : CheckResult),
      (updateStatus now2 (updateStatus now1 check r1) r2).status = r2.status ∧
      (updateStatus now2 (updateStatus now1 check r1) r2).lastCheck = r2.timestamp) :=
  ⟨fun _ _ _ => ⟨rfl, rfl⟩, fun _ _ _ _ _ => ⟨rfl, rfl⟩⟩

/-- C7: a check whose record type is none of A, CNAME, NS, TXT, MX always
yields the `<domain>-<type>-UNSUPPORTED` status with an empty record list,
and that status is never the PASS or FAIL status. -/
theorem claim_unsupported_result (check : DNSCheck) (resolver : Resolver)
    (h1 : check.type ≠ "A") (h2 : check.type ≠ "CNAME") (h3 : check.type ≠ "NS")
    (h4 : check.type ≠ "TXT") (h5 : check.type ≠ "MX") :
    performDNSCheck check resolver = (unsupportedStatus check, []) ∧
    unsupportedStatus check ≠ passStatus check ∧
    unsupportedStatus check ≠ failStatus check := by
  refine ⟨?_, unsupportedStatus_ne_passStatus check, unsupportedStatus_ne_failStatus check⟩
  simp [performDNSCheck, h1, h2, h3, h4, h5]

/-- Witness for C7: the `SRV` sample check, even against a resolver whose
lookups would succeed. -/
theorem claim_unsupported_result_w :
    performDNSCheck sampleCheckSRV sampleResolver = (unsupportedStatus sampleCheckSRV, []) ∧
    unsupportedStatus sampleCheckSRV ≠ passStatus sampleCheckSRV ∧
    unsupportedStatus sampleCheckSRV ≠ failStatus sampleCheckSRV :=
  claim_unsupported_result sampleCheckSRV sampleResolver (by decide) (by decide) (by decide)
    (by decide) (by decide)

/-- C8: a line with fewer than four tab-separated fields, or whose first
field fails timestamp parsing, contributes nothing during rehydration and
leaves the processing of all other lines unchanged (`loadLines` is total, so
such a line can never make `loadHistoryFromLog` fail). -/
theorem claim_malformed_skipped (now : Nat) (line : String)
    (h : (splitOnCharS '\t' line).length < 4 ∨
      parseTimestamp ((splitOnCharS '\t' line).getD 0 "") = none) :
    parseLogLine now line = none ∧
    ∀ ls1 ls2 : List String,
      loadLines now (ls1 ++ line :: ls2) = loadLines now (ls1 ++ ls2) := by
  have hnone : parseLogLine now line = none := by
    unfold parseLogLine
    by_cases h0 : line = ""
    · rw [if_pos h0]
    · rw [if_neg h0]
      by_cases h4 : (splitOnCharS '\t' line).length < 4
      · rw [if_pos h4]
      · rw [if_neg h4]
        rcases h with h | hts
        · exact absurd h h4
        · rw [hts]
          rfl
  refine ⟨hnone, fun ls1 ls2 => ?_⟩
  unfold loadLines
  rw [List.filterMap_append, List.filterMap_append]
  simp [List.filterMap_cons, hnone]

/-- Witness for C8: a line with no tabs is skipped and drops out of a
surrounding line list. -/
theorem claim_malformed_skipped_w :
    parseLogLine 0 "garbage-no-tabs" = none ∧
    loadLines 0 (["50\tS\tsrv\tv"] ++ "garbage-no-tabs" :: ["50\tS2\tsrv\tv2"])
      = loadLines 0 (["50\tS\tsrv\tv"] ++ ["50\tS2\tsrv\tv2"]) :=
  ⟨(claim_malformed_skipped 0 "garbage-no-tabs" (Or.inl (by decide))).1,
   (claim_malformed_skipped 0 "garbage-no-tabs" (Or.inl (by decide))).2
     ["50\tS\tsrv\tv"] ["50\tS2\tsrv\tv2"]⟩

/-- C10: every rehydrated entry has a non-empty record list (the comma
split always yields at least one field), and in particular a result
persisted with an empty record list comes back with the one-element list
`[""]` instead of the empty list. -/
theorem claim_rehydrated_nonempty :
    (∀ (now : Nat) (line : String) (r : CheckResult),
      parseLogLine now line = some r → r.actualResult ≠ []) ∧
    (∀ (now : Nat) (check fresh : DNSCheck) (r : CheckResult),
      fresh.history = [] → now - retentionSeconds < r.timestamp →
      r.actualResult = [] →
      (∀ ch ∈ r.status.data, ch ≠ '\t' ∧ ch ≠ '\n') →
      (∀ ch ∈ r.server.data, ch ≠ '\t' ∧ ch ≠ '\n') →
      (loadHistoryFromLog now fresh (saveCheckToLog (updateStatus now check r) "")).history
        = [{ r with actualResult := [""] }]) := by
  constructor
  · intro now line r h
    exact (parseLogLine_props h).2
  · intro now check fresh r hfresh hwin hempty hstatus hserver
    have hrec : ∀ v ∈ r.actualResult, ∀ ch ∈ v.data, ch ≠ ',' ∧ ch ≠ '\t' ∧ ch ≠ '\n' := by
      rw [hempty]
      intro v hv
      exact absurd hv (List.not_mem_nil v)
    rw [saveCheckToLog_updateStatus now check r hwin]
    unfold loadHistoryFromLog
    rw [hfresh, List.nil_append, loadLines_logEntry now r hwin hstatus hserver hrec, hempty]
    rfl

/-- Witness for C10: a concrete parsed line has a non-empty record list, and
the sample error result (empty record list) rehydrates to `[""]`. -/
theorem claim_rehydrated_nonempty_w :
    sampleParsed.actualResult ≠ [] ∧
    (loadHistoryFromLog 100 sampleCheckA
        (saveCheckToLog (updateStatus 100 sampleCheckA sampleErrResult) "")).history
      = [{ sampleErrResult with actualResult := [""] }] :=
  ⟨claim_rehydrated_nonempty.1 50 "50\tS\tsrv\tv" sampleParsed rfl,
   claim_rehydrated_nonempty.2 100 sampleCheckA sampleCheckA sampleErrResult rfl
     (by decide) rfl (by decide) (by decide)⟩

/-- C2 counterexample: the claim fails as stated.  The sample error result
has timestamp 100 (inside the window for `now = 100`) and an empty record
list, but appending, persisting and rehydrating it yields an entry whose
record list is `[""]`, not the original `[]` — `strings.Join` of an empty
list is `""` and `strings.Split` of `""` on `","` is `[""]`. -/
theorem claim_roundtrip_cex :
    (loadHistoryFromLog 100 sampleCheckA
        (saveCheckToLog (updateStatus 100 sampleCheckA sampleErrResult) "")).history.map
      (fun h => h.actualResult) = [[""]] ∧
    sampleErrResult.actualResult = [] := by
  constructor
  · rfl
  · rfl

/-- C2 (amended): the round-trip reproduces the result exactly — status,
server, timestamp to the second, record list — provided the record list is
non-empty and the persisted fields avoid the format's separator characters
(no comma, tab or newline in record values; no tab or newline in status or
server). -/
theorem claim_roundtrip_amended (now : Nat) (check fresh : DNSCheck) (r : CheckResult)
    (hfresh : fresh.history = [])
    (hwin : now - retentionSeconds < r.timestamp)
    (hne : r.actualResult ≠ [])
    (hrec : ∀ v ∈ r.actualResult, ∀ ch ∈ v.data, ch ≠ ',' ∧ ch ≠ '\t' ∧ ch ≠ '\n')
    (hstatus : ∀ ch ∈ r.status.data, ch ≠ '\t' ∧ ch ≠ '\n')
    (hserver : ∀ ch ∈ r.server.data, ch ≠ '\t' ∧ ch ≠ '\n') :
    (loadHistoryFromLog now fresh (saveCheckToLog (updateStatus now check r) "")).history
      = [r] := by
  rw [saveCheckToLog_updateStatus now check r hwin]
  unfold loadHistoryFromLog
  rw [hfresh, List.nil_append, loadLines_logEntry now r hwin hstatus hserver hrec,
    splitOnCharS_joinCharS hne (fun v hv hm => (hrec v hv _ hm).1 rfl)]

/-- Witness for C2 (amended): the sample passing result survives the
round-trip unchanged. -/
theorem claim_roundtrip_amended_w :
    (loadHistoryFromLog 50 sampleCheckA
        (saveCheckToLog (updateStatus 50 sampleCheckA sampleResult) "")).history
      = [sampleResult] :=
  claim_roundtrip_amended 50 sampleCheckA sampleCheckA sampleResult rfl (by decide)
    (by decide) (by decide) (by decide) (by decide)

/-- C1: when a supported-type lookup succeeds with record values `records`,
`performDNSCheck` returns exactly `records`, and returns the
`<domain>-<type>-PASS` status precisely when some record's lower-casing
contains the lower-cased expected value as a substring — otherwise the
`<domain>-<type>-FAIL` status. -/
theorem claim_pass_fail_classification (check : DNSCheck) (resolver : Resolver)
    (records : List String)
    (h : lookupRecords check resolver = some (Except.ok records)) :
    (performDNSCheck check resolver).2 = records ∧
    ((performDNSCheck check resolver).1 = passStatus check ↔
      ∃ v ∈ records,
        containsSub (toLowerStr v).data (toLowerStr check.expected).data = true) ∧
    ((performDNSCheck check resolver).1 = failStatus check ↔
      ¬ ∃ v ∈ records,
        containsSub (toLowerStr v).data (toLowerStr check.expected).data = true) := by
  by_cases hA : check.type = "A"
  · simp only [lookupRecords, hA] at h
    simp only [Option.some.injEq] at h
    have hgoal : performDNSCheck check resolver = matchRecords check records := by
      simp [performDNSCheck, hA, h]
    rw [hgoal]
    exact matchRecords_spec check records
  by_cases hC : check.type = "CNAME"
  · simp only [lookupRecords, hA, hC, if_neg, if_pos] at h
    simp only [Option.some.injEq] at h
    cases hc : resolver.lookupCNAME check.domain with
    | error e => rw [hc] at h; exact absurd h (by simp [Except.map])
    | ok c =>
      rw [hc] at h
      simp only [Except.map, Except.ok.injEq] at h
      have hgoal : performDNSCheck check resolver = matchRecords check [c] := by
        simp [performDNSCheck, hA, hC, hc]
      rw [hgoal, h]
      exact matchRecords_spec check records
  by_cases hN : check.type = "NS"
  · simp only [lookupRecords, hA, hC, hN] at h
    simp only [Option.some.injEq] at h
    have hgoal : performDNSCheck check resolver = matchRecords check records := by
      simp [performDNSCheck, hA, hC, hN, h]
    rw [hgoal]
    exact matchRecords_spec check records
  by_cases hT : check.type = "TXT"
  · simp only [lookupRecords, hA, hC, hN, hT] at h
    simp only [Option.some.injEq] at h
    have hgoal : performDNSCheck check resolver = matchRecords check records := by
      simp [performDNSCheck, hA, hC, hN, hT, h]
    rw [hgoal]
    exact matchRecords_spec check records
  by_cases hM : check.type = "MX"
  · simp only [lookupRecords, hA, hC, hN, hT, hM] at h
    simp only [Option.some.injEq] at h
    have hgoal : performDNSCheck check resolver = matchRecords check records := by
      simp [performDNSCheck, hA, hC, hN, hT, hM, h]
    rw [hgoal]
    exact matchRecords_spec check records
  · simp [lookupRecords, hA, hC, hN, hT, hM] at h

/-- Witness for C1: the A-record example of the spec — expected value
`93.184.216.34`, lookup returning `["93.184.216.34"]`. -/
theorem claim_pass_fail_classification_w :
    (performDNSCheck sampleCheckA sampleResolver).2 = ["93.184.216.34"] ∧
    ((performDNSCheck sampleCheckA sampleResolver).1 = passStatus sampleCheckA ↔
      ∃ v ∈ ["93.184.216.34"],
        containsSub (toLowerStr v).data (toLowerStr sampleCheckA.expected).data = true) ∧
    ((performDNSCheck sampleCheckA sampleResolver).1 = failStatus sampleCheckA ↔
      ¬ ∃ v ∈ ["93.184.216.34"],
        containsSub (toLowerStr v).data (toLowerStr sampleCheckA.expected).data = true) :=
  claim_pass_fail_classification sampleCheckA sampleResolver ["93.184.216.34"] rfl

/-- C4: when the lookup of a supported type fails with error text `e`,
`performDNSCheck` returns an empty record list and the
`<domain>-<type>-ERROR-<e>` status, which contains `-ERROR-` as a substring
and is never the PASS or FAIL status of that check. -/
theorem claim_error_result (check : DNSCheck) (resolver : Resolver) (e : String)
    (h : lookupRecords check resolver = some (Except.error e)) :
    performDNSCheck check resolver = (errStatus check e, []) ∧
    containsSub (errStatus check e).data ("-ERROR-" : String).data = true ∧
    errStatus check e ≠ passStatus check ∧ errStatus check e ≠ failStatus check := by
  refine ⟨?_, ?_, errStatus_ne_passStatus check e, errStatus_ne_failStatus check e⟩
  · by_cases hA : check.type = "A"
    · simp only [lookupRecords, hA, Option.some.injEq] at h
      simp [performDNSCheck, hA, h]
    by_cases hC : check.type = "CNAME"
    · simp only [lookupRecords, hA, hC, Option.some.injEq] at h
      cases hc : resolver.lookupCNAME check.domain with
      | error e' =>
        rw [hc] at h
        simp only [Except.map, Except.error.injEq] at h
        simp [performDNSCheck, hA, hC, hc, h]
      | ok c => rw [hc] at h; exact absurd h (by simp [Except.map])
    by_cases hN : check.type = "NS"
    · simp only [lookupRecords, hA, hC, hN, Option.some.injEq] at h
      simp [performDNSCheck, hA, hC, hN, h]
    by_cases hT : check.type = "TXT"
    · simp only [lookupRecords, hA, hC, hN, hT, Option.some.injEq] at h
      simp [performDNSCheck, hA, hC, hN, hT, h]
    by_cases hM : check.type = "MX"
    · simp only [lookupRecords, hA, hC, hN, hT, hM, Option.some.injEq] at h
      simp [performDNSCheck, hA, hC, hN, hT, hM, h]
    · simp [lookupRecords, hA, hC, hN, hT, hM] at h
  · have hd : (errStatus check e).data
        = (check.domain.data ++ ("-" : String).data ++ check.type.data)
          ++ (("-ERROR-" : String).data ++ e.data) := by
      simp [errStatus, strData_append, List.append_assoc]
    rw [hd]
    exact containsSub_append_left _ (containsSub_here _ _)

/-- Witness for C4: the sample check against the always-failing resolver. -/
theorem claim_error_result_w :
    performDNSCheck sampleCheckA sampleErrResolver
        = (errStatus sampleCheckA "lookup failed", []) ∧
    containsSub (errStatus sampleCheckA "lookup failed").data ("-ERROR-" : String).data
        = true ∧
    errStatus sampleCheckA "lookup failed" ≠ passStatus sampleCheckA ∧
    errStatus sampleCheckA "lookup failed" ≠ failStatus sampleCheckA :=
  claim_error_result sampleCheckA sampleErrResolver "lookup failed" rfl

/-- C6 counterexample: the claim fails as stated.  With the secondary DNS
server configured to the same name as the primary (`"8.8.8.8"`, non-empty,
so a secondary resolver is created), the two results recorded in one tick
carry equal server identifiers — they do not differ. -/
theorem claim_tick_servers_cex :
    ("8.8.8.8" : String) ≠ "" ∧
    (tickResults "8.8.8.8" "8.8.8.8" sampleCheckA sampleResolver sampleResolver 0).map
      (fun r => r.server) = ["8.8.8.8", "8.8.8.8"] := by
  constructor
  · decide
  · rfl

/-- C6 (amended): in a tick with a secondary resolver configured, exactly
two results are recorded, both carrying the single capture timestamp taken
at the start of the tick, the first carrying the primary server name and the
second the secondary server name (so their identifiers differ exactly when
the two configured names differ). -/
theorem claim_tick_same_timestamp (pn sn : String) (check : DNSCheck)
    (p s : Resolver) (now : Nat) (hs : sn ≠ "") :
    (tickResults pn sn check p s now).map (fun r => r.timestamp) = [now, now] ∧
    (tickResults pn sn check p s now).map (fun r => r.server) = [pn, sn] := by
  unfold tickResults
  rw [if_neg hs]
  exact ⟨rfl, rfl⟩

/-- Witness for C6 (amended): a tick with primary `8.8.8.8` and secondary
`8.8.4.4` at capture time 7. -/
theorem claim_tick_same_timestamp_w :
    (tickResults "8.8.8.8" "8.8.4.4" sampleCheckA sampleResolver sampleResolver 7).map
        (fun r => r.timestamp) = [7, 7] ∧
    (tickResults "8.8.8.8" "8.8.4.4" sampleCheckA sampleResolver sampleResolver 7).map
        (fun r => r.server) = ["8.8.8.8", "8.8.4.4"] :=
  claim_tick_same_timestamp "8.8.8.8" "8.8.4.4" sampleCheckA sampleResolver
    sampleResolver 7 (by decide)

/-- C9 counterexample: the claim fails as stated.  In `updateStatus` the
history append (event index 3 of the trace) runs while the coarse
`Config.mu` lock is held — for the worker of check 0 and equally for the
worker of check 1 — so history appends are not protected only by the
per-check lock, status-field mutation is not the only operation under the
coarse lock, and one check's worker does wait on a lock (the coarse one)
held by another check's worker. -/
theorem claim_locking_cex :
    (updateStatusEvents 0).getD 3 LockEvt.setStatusFields = LockEvt.appendHistory ∧
    LockId.coarse ∈ heldAt (updateStatusEvents 0) 3 ∧
    LockId.coarse ∈ heldAt (updateStatusEvents 1) 3 := by
  refine ⟨rfl, ?_, ?_⟩ <;> decide

/-- C9 (amended): `updateStatus` holds the coarse state lock throughout its
body — during the status-field writes and also during the history append and
prune, with the per-check history lock nested inside it — so workers of
different checks contend on the coarse lock; only `saveCheckToLog` touches a
check's history under just that check's own lock, never acquiring the coarse
lock. -/
theorem claim_locking_amended (i k : Nat) (h1 : 1 ≤ k) (h2 : k ≤ 5) :
    LockId.coarse ∈ heldAt (updateStatusEvents i) k ∧
    LockEvt.acquire LockId.coarse ∉ saveCheckToLogEvents i := by
  constructor
  · interval_cases k <;>
      simp [heldAt, updateStatusEvents, List.take_succ_cons, List.take_zero]
  · simp [saveCheckToLogEvents]

/-- Witness for C9 (amended): the coarse lock is held when the history
append of check 0 executes (after the first four events). -/
theorem claim_locking_amended_w :
    LockId.coarse ∈ heldAt (updateStatusEvents 0) 4 ∧
    LockEvt.acquire LockId.coarse ∉ saveCheckToLogEvents 0 :=
  claim_locking_amended 0 4 (by decide) (by decide)
